import Mathlib

/-!
Verification of the GrammarLee parser and reward engine.

This file is a shallow embedding, in Lean 4, of the inline-anchor parser in
`src/grammarlee/parser.py` and of the reward aggregation in
`src/grammarlee-train/grammarlee_train/rewards/{components,aggregate}.py`.
Text is modelled as `String` / `List Char` (one `Char` per Unicode code
point, matching Python's `str` indexing), machine integers as `Nat`, and
Python floats in the reward layer as exact rationals `ℚ`.

Two pieces of the Python environment are modelled abstractly:
* `difflib.unified_diff` (Python standard library, not part of this
  repository) is a parameter `diffFn : String → String → List String`
  wherever `_generate_diff_message` needs it; theorems quantify over it.
* Python exceptions inside the reconstruction `try:` block are modelled by
  a parameter `recon : String → List Edit → Except String String`; the
  concrete parser instantiates it with the (total) embedded
  `apply_inline_with_old_text`.

The classes `InlineAnchor`, `Edit` and `ParseResult` are imported by
`parser.py` from `grammarlee.models` but that module's definitions of them
are not in the source tree; their fields are reconstructed from the spec's
data-model section and from how `parser.py` and the reward components read
them (see the doc comments marked `Modelled from the spec`).
-/

namespace GrammarLee

/-- Greedy run of ASCII decimal digits, accumulating the value as Python's
`int` would; returns the value and the unconsumed remainder.  Embeds the
`\d*` part of `INLINE_TOKEN_RE` (restricted to ASCII digits). -/
def parseDigits : List Char → Nat → Nat × List Char
  | [], acc => (acc, [])
  | c :: rest, acc =>
    if c.isDigit then parseDigits rest (acc * 10 + (c.toNat - 48))
    else (acc, c :: rest)

/-- Embeds the `::` `(?P<id>[1-9]\d*)` `]` tail of `INLINE_TOKEN_RE`:
two colons, a nonzero leading digit (code points 49–57, i.e. `'1'`–`'9'`),
a greedy digit run, and a closing bracket.  Returns the numeric id and the
remainder after the `]`. -/
def parseIdClose : List Char → Option (Nat × List Char)
  | c1 :: c2 :: c3 :: rest =>
    if c1 = ':' ∧ c2 = ':' ∧ '1'.toNat ≤ c3.toNat ∧ c3.toNat ≤ '9'.toNat then
      match parseDigits rest (c3.toNat - 48) with
      | (idv, ']' :: r) => some (idv, r)
      | _ => none
    else none
  | _ => none

/-- Embeds a `INLINE_TOKEN_RE.match` attempt on the characters after the
opening `[`: the non-greedy `(?P<new>[^\[\]]*?)` tries the shortest new-text
first, so at every position we first try to read `::id]` and only then
consume one more (non-bracket) character into the new text.  Returns
(new-text characters, id, remainder after the closing `]`). -/
def tryToken : List Char → Option (List Char × Nat × List Char)
  | [] => none
  | c :: rest =>
    match parseIdClose (c :: rest) with
    | some (idv, r) => some ([], idv, r)
    | none =>
      if c = '[' ∨ c = ']' then none
      else
        match tryToken rest with
        | some (nw, idv, r) => some (c :: nw, idv, r)
        | none => none

/-- A successful `INLINE_TOKEN_RE` match: `start`/`stop` are the match span
(`m.span()`), `new` the raw new-text group, `id` the numeric id group. -/
structure InlineMatch where
  start : Nat
  stop : Nat
  new : List Char
  id : Nat
deriving DecidableEq, Repr

/-- Embeds the loop body of `iter_inline_matches`: a single left-to-right
pass with a bracket-depth counter; the token pattern is attempted only at
depth 0 on a `[`; on success the cursor jumps past the match with depth
unchanged, on failure the `[` increments depth; `]` decrements depth,
floored at 0 (`Nat` subtraction).  The `fuel` argument is an upper bound on
the number of steps (each step consumes at least one character), used only
to make the recursion structural; `iter_inline_matches` supplies
`length + 1`, which is always sufficient. -/
def iterAuxF : Nat → List Char → Nat → Nat → List InlineMatch
  | 0, _, _, _ => []
  | _ + 1, [], _, _ => []
  | fuel + 1, c :: rest, i, depth =>
    if c = '[' then
      if depth = 0 then
        match tryToken rest with
        | some (nw, idv, rest2) =>
          { start := i, stop := i + 1 + (rest.length - rest2.length),
            new := nw, id := idv } ::
            iterAuxF fuel rest2 (i + 1 + (rest.length - rest2.length)) 0
        | none => iterAuxF fuel rest (i + 1) (depth + 1)
      else iterAuxF fuel rest (i + 1) (depth + 1)
    else if c = ']' then iterAuxF fuel rest (i + 1) (depth - 1)
    else iterAuxF fuel rest (i + 1) depth

/-- `iter_inline_matches`: yield `INLINE_TOKEN_RE` matches only at
bracket-depth 0. -/
def iter_inline_matches (s : String) : List InlineMatch :=
  iterAuxF (s.data.length + 1) s.data 0 0

/-- Modelled from the spec (the `InlineAnchor` class of `grammarlee.models`
is missing from the source tree): `id` positive integer, `kind` one of
`"replace_or_insert"` / `"delete"`, `new_text` the raw payload, `span` the
match offsets, exactly as `parse_inline_anchors` constructs it. -/
structure InlineAnchor where
  id : Nat
  kind : String
  new_text : String
  span : Nat × Nat
deriving DecidableEq, Repr

/-- `parse_inline_anchors`: one `InlineAnchor` per depth-0 match, with
`kind = "delete"` exactly when the new-text group is empty. -/
def parse_inline_anchors (inline_text : String) : List InlineAnchor :=
  (iter_inline_matches inline_text).map fun m =>
    { id := m.id
      kind := if m.new = [] then "delete" else "replace_or_insert"
      new_text := String.mk m.new
      span := (m.start, m.stop) }

/-- One left-to-right, non-overlapping replacement of the two-character
pattern `a b` by the single character `r`: the semantics of Python's
`str.replace` for the two-character patterns used by `_unescape_minimal`. -/
def replace2 (a b r : Char) : List Char → List Char
  | x :: y :: rest =>
    if x = a ∧ y = b then r :: replace2 a b r rest
    else x :: replace2 a b r (y :: rest)
  | short => short

/-- The backslash character, code point 92. -/
def bsl : Char := Char.ofNat 92

/-- `_unescape_minimal`: six chained `str.replace` calls, in source order
`\\`, `\"` (34), `\'` (39), `\n`, `\r`, `\t`.  Each replacement runs on the
output of the previous one, exactly as the Python method chain does. -/
def unescape_minimal (s : List Char) : List Char :=
  replace2 bsl 't' '\t'
    (replace2 bsl 'r' '\r'
      (replace2 bsl 'n' '\n'
        (replace2 bsl (Char.ofNat 39) (Char.ofNat 39)
          (replace2 bsl (Char.ofNat 34) (Char.ofNat 34)
            (replace2 bsl bsl bsl s)))))

/-- Python `.rstrip("\r\n")`: drop trailing carriage-return and newline
characters from the end only. -/
def rstripNewlines (cs : List Char) : List Char :=
  (cs.reverse.dropWhile (fun c => c = '\r' || c = '\n')).reverse

/-- The shared rendering loop of `apply_inline` and
`apply_inline_with_old_text`: walk the match list in scan order keeping the
cursor `last`, copying the literal slice before each match
(`inline_text[last : m.start()]`), substituting `sub m` for the match, and
appending the tail `inline_text[last:]` at the end. -/
def renderAux (sub : InlineMatch → List Char) (cs : List Char) :
    List InlineMatch → Nat → List Char
  | [], last => cs.drop last
  | m :: ms, last =>
    (cs.drop last).take (m.start - last) ++ sub m ++ renderAux sub cs ms m.stop

/-- `apply_inline`: substitute every depth-0 anchor with its unescaped new
text (empty for deletes), then strip trailing `\r`/`\n` from the whole
result. -/
def apply_inline (inline_text : String) : String :=
  String.mk (rstripNewlines
    (renderAux (fun m => unescape_minimal m.new) inline_text.data
      (iter_inline_matches inline_text) 0))

/-- Modelled from the spec (the `Edit` class of `grammarlee.models` is
missing from the source tree): id, old text, new text, free-form category
label, optional comment, and an optional explicit action (present only in
the grammar-driven variant; the producer-supplied records of `parser.py`
carry none). -/
structure Edit where
  id : Nat
  old : String
  new : String
  category : String
  comment : Option String
  action : Option String
deriving DecidableEq, Repr

/-- Modelled from the spec: `is_valid_category` is membership of the fixed
category whitelist. -/
def Edit.is_valid_category (e : Edit) : Bool :=
  ["GRAMMAR", "SPELLING", "PUNCTUATION", "STYLE", "CLARITY", "WORD",
    "WORDINESS"].contains e.category

/-- Modelled from the spec: `consistency_ok` checks that the old/new shape
matches the action — REPLACE needs both non-empty, INSERT an empty old and
non-empty new, DELETE a non-empty old and empty new; an unrecognized action
is inconsistent; with no action the check is skipped (the record counts as
consistent). -/
def Edit.consistency_ok (e : Edit) : Bool :=
  match e.action with
  | some a =>
    if a = "REPLACE" then (e.old != "") && (e.new != "")
    else if a = "INSERT" then (e.old == "") && (e.new != "")
    else if a = "DELETE" then (e.old != "") && (e.new == "")
    else false
  | none => true

/-- The dict comprehension `{edit.id: edit.old for edit in edits}` followed
by a lookup: later duplicates overwrite earlier ones, so the lookup finds
the last edit with the given id. -/
def edit_map_lookup (edits : List Edit) (i : Nat) : Option String :=
  (edits.reverse.find? (fun e => e.id == i)).map (fun e => e.old)

/-- `apply_inline_with_old_text`: substitute every depth-0 anchor with the
unescaped `old` text of the edit sharing its id, falling back to the
anchor's own new text when no edit has that id, then strip trailing
`\r`/`\n`. -/
def apply_inline_with_old_text (inline_text : String) (edits : List Edit) :
    String :=
  String.mk (rstripNewlines
    (renderAux
      (fun m =>
        match edit_map_lookup edits m.id with
        | some old => unescape_minimal old.data
        | none => unescape_minimal m.new)
      inline_text.data (iter_inline_matches inline_text) 0))

/-- `_generate_diff_message`: if the (line-oriented unified) diff of the two
texts is non-empty, report it joined into one string; otherwise fall back to
comparing the two lengths.  `diffFn` stands for
`difflib.unified_diff(original.splitlines(keepends=True), ...)`, a Python
standard-library routine external to this repository, so it is kept
abstract; only emptiness versus non-emptiness of its output is inspected. -/
def generate_diff_message (diffFn : String → String → List String)
    (original reconstructed : String) : String :=
  let diff := diffFn original reconstructed
  if diff ≠ [] then
    "Text mismatch when reconstructing original from edits:\n" ++
      String.join diff
  else
    "Text mismatch: original length=" ++ toString original.length ++
      ", reconstructed length=" ++ toString reconstructed.length

/-- The duck-typed prediction object of `parse_document`: each attribute may
be absent or `None` (both collapse to the same default through
`getattr(pred, name, default) or default`), so each is one `Option`. -/
structure Producer where
  edited_text : Option String
  edits : Option (List Edit)
  backmatter_text : Option String
deriving Repr

/-- Modelled from the spec (the `ParseResult` class of `grammarlee.models`
is missing from the source tree): the single immutable output snapshot with
the fields `parse_document` fills. -/
structure ParseResult where
  inline_text : String
  backmatter_text : String
  final_text : String
  anchors : List InlineAnchor
  edits : List Edit
  errors : List String
deriving Repr

/-- Equality of Python sets built from the two id lists:
`{a.id for a in anchors} == {e.id for e in edits}`. -/
def setEqIds (xs ys : List Nat) : Bool :=
  xs.all (fun x => ys.contains x) && ys.all (fun y => xs.contains y)

/-- `parse_document`, with the body of its reconstruction `try:` block
abstracted into `recon` (so that Python exceptions in it are expressible as
`Except.error`) and `difflib` abstracted into `diffFn`.  Everything else is
a direct transcription: attribute normalization, anchor scan, rendering,
the two cardinality/ID-set checks (skipped when no edits are supplied), and
the optional reconstruction check whose failure or mismatch appends one
descriptive error string. -/
def parse_document_gen (recon : String → List Edit → Except String String)
    (diffFn : String → String → List String)
    (pred : Producer) (original_text : Option String) : ParseResult :=
  let inline_text := pred.edited_text.getD ""
  let edits := pred.edits.getD []
  let backmatter_text := pred.backmatter_text.getD ""
  let anchors := parse_inline_anchors inline_text
  let final_text := apply_inline inline_text
  let anchor_ids := anchors.map fun a => a.id
  let edit_ids := edits.map fun e => e.id
  let errs1 :=
    if edits ≠ [] ∧ anchors.length ≠ edits.length then
      ["Edits not matching anchors."] else []
  let errs2 :=
    if edits ≠ [] ∧ setEqIds anchor_ids edit_ids = false then
      ["Anchor IDs not matched."] else []
  let errs3 :=
    match original_text with
    | none => []
    | some orig =>
      if edits = [] then []
      else
        match recon inline_text edits with
        | Except.ok reconstructed =>
          if reconstructed ≠ orig then
            ["Failed to reconstruct original text from edits. " ++
              generate_diff_message diffFn orig reconstructed]
          else []
        | Except.error e =>
          ["Error during original text reconstruction: " ++ e]
  { inline_text := inline_text
    backmatter_text := backmatter_text
    final_text := final_text
    anchors := anchors
    edits := edits
    errors := errs1 ++ errs2 ++ errs3 }

/-- The concrete `parse_document`: the reconstruction step is the embedded
(total, hence never-failing) `apply_inline_with_old_text`. -/
def parse_document (diffFn : String → String → List String)
    (pred : Producer) (original_text : Option String) : ParseResult :=
  parse_document_gen
    (fun inline es => Except.ok (apply_inline_with_old_text inline es))
    diffFn pred original_text

/-!
Reward layer (`grammarlee_train.rewards`).  Component values, weights and
rewards are exact rationals standing for the Python floats; every value that
actually arises is a small ratio of machine integers, where float and
rational arithmetic agree.  The `details` dictionaries attached to component
scores in Python are debugging payload never read by the aggregation (or by
any claim) and are not modelled.
-/

/-- One named component score. -/
structure ComponentScore where
  name : String
  value : ℚ
deriving Repr

/-- `clamp01`. -/
def clamp01 (x : ℚ) : ℚ := max 0 (min 1 x)

/-- The configuration dictionary, restricted to the keys the reward code
reads (each `config.get(key, default)` becomes a field access). -/
structure Config where
  gate_on_parse_errors : Bool
  gate_on_duplicate_ids : Bool
  gate_on_extreme_comments : Bool
  max_comment_length : Nat
  extreme_comment_length : Nat
  weights : List (String × ℚ)
deriving Repr

/-- `weights.get(name, 1.0)`. -/
def weightOf (config : Config) (name : String) : ℚ :=
  match config.weights.find? (fun p => p.1 == name) with
  | some p => p.2
  | none => 1

/-- `DEFAULT_CONFIG` from `weights.py`. -/
def DEFAULT_CONFIG : Config :=
  { gate_on_parse_errors := true
    gate_on_duplicate_ids := false
    gate_on_extreme_comments := true
    max_comment_length := 100
    extreme_comment_length := 200
    weights :=
      [("has_backmatter", 0.1), ("no_parse_errors", 0.15),
       ("anchors_covered", 0.3), ("action_consistency", 0.25),
       ("valid_categories", 0.1), ("comment_length", 0.1),
       ("no_duplicate_ids", 0.1)] }

/-- `len(e.comment or "")`. -/
def commentLen (e : Edit) : Nat := (e.comment.getD "").length

/-- `score_has_backmatter`: 1 iff the backmatter text has non-whitespace
content (`bool(x and x.strip())`). -/
def score_has_backmatter (pr : ParseResult) : ComponentScore :=
  ⟨"has_backmatter", if pr.backmatter_text.trim ≠ "" then 1 else 0⟩

/-- `score_no_parse_errors`: 0 iff the error list is non-empty. -/
def score_no_parse_errors (pr : ParseResult) : ComponentScore :=
  ⟨"no_parse_errors", if pr.errors.length > 0 then 0 else 1⟩

/-- `score_anchors_covered`: fraction of distinct anchor ids that also occur
among the edit ids; vacuously 1 with no anchors. -/
def score_anchors_covered (pr : ParseResult) : ComponentScore :=
  if pr.anchors = [] then ⟨"anchors_covered", 1⟩
  else
    let aset := (pr.anchors.map fun a => a.id).toFinset
    let eset := (pr.edits.map fun e => e.id).toFinset
    let covered := (aset ∩ eset).card
    let total := aset.card
    ⟨"anchors_covered", if total > 0 then (covered : ℚ) / total else 1⟩

/-- `score_action_consistency`: fraction of edits whose `consistency_ok`
flag holds; with no edits, 0 if anchors exist (fundamental failure) else 1. -/
def score_action_consistency (pr : ParseResult) : ComponentScore :=
  if pr.edits = [] then
    if pr.anchors ≠ [] then ⟨"action_consistency", 0⟩
    else ⟨"action_consistency", 1⟩
  else
    let consistent := (pr.edits.filter fun e => e.consistency_ok).length
    ⟨"action_consistency", (consistent : ℚ) / pr.edits.length⟩

/-- `score_valid_categories`: fraction of edits whose category is in the
whitelist; with no edits, 0 if anchors exist else 1. -/
def score_valid_categories (pr : ParseResult) : ComponentScore :=
  if pr.edits = [] then
    if pr.anchors ≠ [] then ⟨"valid_categories", 0⟩
    else ⟨"valid_categories", 1⟩
  else
    let valid := (pr.edits.filter fun e => e.is_valid_category).length
    ⟨"valid_categories", (valid : ℚ) / pr.edits.length⟩

/-- `score_comment_length`: fraction of edits whose comment length is within
`max_length`; with no edits, 0 if anchors exist else 1. -/
def score_comment_length (pr : ParseResult) (max_length : Nat) :
    ComponentScore :=
  if pr.edits = [] then
    if pr.anchors ≠ [] then ⟨"comment_length", 0⟩
    else ⟨"comment_length", 1⟩
  else
    let reasonable := (pr.edits.filter fun e => commentLen e ≤ max_length).length
    ⟨"comment_length", (reasonable : ℚ) / pr.edits.length⟩

/-- `score_no_duplicate_ids`: ratio of distinct ids to total ids over the
anchor and edit id lists taken together; 1 when both are empty. -/
def score_no_duplicate_ids (pr : ParseResult) : ComponentScore :=
  let anchor_ids := pr.anchors.map fun a => a.id
  let edit_ids := pr.edits.map fun e => e.id
  let total_ids := anchor_ids.length + edit_ids.length
  if total_ids = 0 then ⟨"no_duplicate_ids", 1⟩
  else
    let total_unique := anchor_ids.toFinset.card + edit_ids.toFinset.card
    ⟨"no_duplicate_ids", (total_unique : ℚ) / total_ids⟩

/-- The seven component scores, in `to_list` order. -/
structure ComponentScores where
  has_backmatter : ComponentScore
  no_parse_errors : ComponentScore
  anchors_covered : ComponentScore
  action_consistency : ComponentScore
  valid_categories : ComponentScore
  comment_length : ComponentScore
  no_duplicate_ids : ComponentScore
deriving Repr

/-- `ComponentScores.to_list`. -/
def ComponentScores.to_list (s : ComponentScores) : List ComponentScore :=
  [s.has_backmatter, s.no_parse_errors, s.anchors_covered,
   s.action_consistency, s.valid_categories, s.comment_length,
   s.no_duplicate_ids]

/-- `RewardBreakdown`. -/
structure RewardBreakdown where
  parse_result : Option ParseResult
  gated : Bool
  components : List ComponentScore
  reward : ℚ
  notes : List String
deriving Repr

/-- `ComponentScores.compute`: gate to zero on parse errors (when enabled,
the default) or else on duplicate ids (when enabled); otherwise take the
weight-normalized average of the component values, clamp it to [0, 1], and
attach a low-score note when the reward falls below 0.3. -/
def ComponentScores.compute (self : ComponentScores) (config : Config) :
    RewardBreakdown :=
  let components := self.to_list
  if config.gate_on_parse_errors = true ∧ self.no_parse_errors.value = 0 then
    ⟨none, true, components, 0, ["Gated due to parse errors"]⟩
  else if config.gate_on_duplicate_ids = true ∧
      self.no_duplicate_ids.value < 1 then
    ⟨none, true, components, 0, ["Gated due to duplicate IDs"]⟩
  else
    let total_weighted :=
      components.foldl (fun acc c => acc + weightOf config c.name * c.value) 0
    let total_weight :=
      components.foldl (fun acc c => acc + weightOf config c.name) 0
    let reward :=
      clamp01 (if total_weight > 0 then total_weighted / total_weight else 0)
    let notes :=
      if reward < 0.3 then
        let low := (components.filter fun c => c.value < 0.5).map fun c => c.name
        if low ≠ [] then
          ["Low scoring components: " ++ String.intercalate ", " low]
        else []
      else []
    ⟨none, false, components, reward, notes⟩

/-- `compute_component_scores`. -/
def compute_component_scores (pr : ParseResult) (config : Config) :
    ComponentScores :=
  { has_backmatter := score_has_backmatter pr
    no_parse_errors := score_no_parse_errors pr
    anchors_covered := score_anchors_covered pr
    action_consistency := score_action_consistency pr
    valid_categories := score_valid_categories pr
    comment_length := score_comment_length pr config.max_comment_length
    no_duplicate_ids := score_no_duplicate_ids pr }

/-- `compute_reward`: first the extreme-comment gate (returning a gated
zero-reward breakdown at the first over-long comment), then
`ComponentScores.compute`, then the parse result is attached and a
contextual note appended when anchors exist but no edits do. -/
def compute_reward (pr : ParseResult) (config : Config) : RewardBreakdown :=
  let scores := compute_component_scores pr config
  if config.gate_on_extreme_comments = true ∧
      pr.edits.any (fun e => decide (config.extreme_comment_length < commentLen e)) = true then
    ⟨some pr, true, scores.to_list, 0,
      ["Gated due to extremely long comment (>" ++
        toString config.extreme_comment_length ++ " chars)"]⟩
  else
    let breakdown := scores.compute config
    let extra :=
      if pr.edits.length = 0 ∧ pr.anchors.length > 0 then
        ["Anchors present but no edits generated"] else []
    { breakdown with
        parse_result := some pr
        notes := breakdown.notes ++ extra }

/-- A stub diff function (always one line) used to instantiate the abstract
`difflib` parameter in concrete witnesses. -/
def witnessDiff : String → String → List String := fun _ _ => ["stub"]

/-- A stub diff function that always renders empty, exercising the
length-comparison fallback in witnesses. -/
def emptyDiff : String → String → List String := fun _ _ => []

/-- A concrete edit used by witnesses: replaces "pupil" by "student". -/
def witnessEdit : Edit :=
  { id := 1, old := "pupil", new := "student", category := "WORD",
    comment := some "better word", action := none }

/-- A concrete producer used by witnesses: one anchor, one matching edit. -/
def witnessPred : Producer :=
  { edited_text := some "The [student::1] walked.",
    edits := some [witnessEdit],
    backmatter_text := some "" }

/-- A producer whose backmatter block is non-empty but malformed (unquoted
old value, spec Scenario E), so the grammar path would yield zero edits:
the producer hands over an empty edit list. -/
def malformedBMPred : Producer :=
  { edited_text := some "x",
    edits := some [],
    backmatter_text := some "[1] REPLACE a -> b [GRAMMAR](oops)" }

/-!
Helper lemmas about the scanner.
-/

theorem parseDigits_ge : ∀ (cs : List Char) (acc : Nat),
    acc ≤ (parseDigits cs acc).1 := by
  intro cs
  induction cs with
  | nil => intro acc; simp [parseDigits]
  | cons c rest ih =>
    intro acc
    simp only [parseDigits]
    split
    · exact le_trans (by omega) (ih (acc * 10 + (c.toNat - 48)))
    · simp

theorem parseDigits_length : ∀ (cs : List Char) (acc : Nat),
    (parseDigits cs acc).2.length ≤ cs.length := by
  intro cs
  induction cs with
  | nil => intro acc; simp [parseDigits]
  | cons c rest ih =>
    intro acc
    simp only [parseDigits]
    split
    · exact le_trans (ih _) (by simp)
    · simp

theorem parseIdClose_pos {cs : List Char} {idv : Nat} {r : List Char}
    (h : parseIdClose cs = some (idv, r)) : 1 ≤ idv := by
  cases cs with
  | nil => simp [parseIdClose] at h
  | cons c1 t1 =>
    cases t1 with
    | nil => simp [parseIdClose] at h
    | cons c2 t2 =>
      cases t2 with
      | nil => simp [parseIdClose] at h
      | cons c3 rest =>
        simp only [parseIdClose] at h
        split at h
        · rename_i hguard
          obtain ⟨-, -, h1, -⟩ := hguard
          split at h
          · rename_i idv0 r0 hpd
            injection h with h'
            injection h' with hidv hr
            subst hidv
            have hge := parseDigits_ge rest (c3.toNat - 48)
            rw [hpd] at hge
            have : ('1').toNat = 49 := by decide
            omega
          · exact absurd h (by simp)
        · exact absurd h (by simp)

theorem parseIdClose_length {cs : List Char} {idv : Nat} {r : List Char}
    (h : parseIdClose cs = some (idv, r)) : r.length ≤ cs.length := by
  cases cs with
  | nil => simp [parseIdClose] at h
  | cons c1 t1 =>
    cases t1 with
    | nil => simp [parseIdClose] at h
    | cons c2 t2 =>
      cases t2 with
      | nil => simp [parseIdClose] at h
      | cons c3 rest =>
        simp only [parseIdClose] at h
        split at h
        · split at h
          · rename_i idv0 r0 hpd
            injection h with h'
            injection h' with hidv hr
            subst hr
            have hlen := parseDigits_length rest (c3.toNat - 48)
            rw [hpd] at hlen
            simp at hlen
            simp
            omega
          · exact absurd h (by simp)
        · exact absurd h (by simp)

theorem tryToken_pos : ∀ {cs nw idv r},
    tryToken cs = some (nw, idv, r) → 1 ≤ idv := by
  intro cs
  induction cs with
  | nil => intro nw idv r h; simp [tryToken] at h
  | cons c rest ih =>
    intro nw idv r h
    simp only [tryToken] at h
    split at h
    · rename_i idv0 r0 hp
      injection h with h'
      injection h' with h1 h2
      injection h2 with h2 h3
      subst h2
      exact parseIdClose_pos hp
    · split at h
      · exact absurd h (by simp)
      · split at h
        · rename_i nw0 idv0 r0 ht
          injection h with h'
          injection h' with h1 h2
          injection h2 with h2 h3
          subst h2
          exact ih ht
        · exact absurd h (by simp)

theorem tryToken_length : ∀ {cs nw idv r},
    tryToken cs = some (nw, idv, r) → r.length ≤ cs.length := by
  intro cs
  induction cs with
  | nil => intro nw idv r h; simp [tryToken] at h
  | cons c rest ih =>
    intro nw idv r h
    simp only [tryToken] at h
    split at h
    · rename_i idv0 r0 hp
      injection h with h'
      injection h' with h1 h2
      injection h2 with h2 h3
      subst h3
      exact parseIdClose_length hp
    · split at h
      · exact absurd h (by simp)
      · split at h
        · rename_i nw0 idv0 r0 ht
          injection h with h'
          injection h' with h1 h2
          injection h2 with h2 h3
          subst h3
          exact le_trans (ih ht) (by simp)
        · exact absurd h (by simp)

theorem iterAuxF_id_pos : ∀ (fuel : Nat) (cs : List Char) (i d : Nat)
    (m : InlineMatch), m ∈ iterAuxF fuel cs i d → 1 ≤ m.id := by
  intro fuel
  induction fuel with
  | zero => intro cs i d m hm; simp [iterAuxF] at hm
  | succ n ih =>
    intro cs i d m hm
    cases cs with
    | nil => simp [iterAuxF] at hm
    | cons c rest =>
      simp only [iterAuxF] at hm
      split at hm
      · split at hm
        · split at hm
          · rename_i nw idv rest2 ht
            rcases List.mem_cons.mp hm with rfl | hmem
            · exact tryToken_pos ht
            · exact ih _ _ _ _ hmem
          · exact ih _ _ _ _ hm
        · exact ih _ _ _ _ hm
      · split at hm
        · exact ih _ _ _ _ hm
        · exact ih _ _ _ _ hm

/-- Any two sufficient fuels give the same scan, so the `length + 1` fuel
supplied by `iter_inline_matches` is canonical: the fuel argument is a
structural-recursion device, not part of the semantics. -/
theorem iterAuxF_fuel_stable : ∀ (f1 f2 : Nat) (cs : List Char) (i d : Nat),
    cs.length ≤ f1 → cs.length ≤ f2 →
    iterAuxF f1 cs i d = iterAuxF f2 cs i d := by
  intro f1
  induction f1 with
  | zero =>
    intro f2 cs i d h1 h2
    have hnil : cs = [] := List.eq_nil_of_length_eq_zero (Nat.le_zero.mp h1)
    subst hnil
    cases f2 <;> simp [iterAuxF]
  | succ n ih =>
    intro f2 cs i d h1 h2
    cases cs with
    | nil => cases f2 <;> simp [iterAuxF]
    | cons c rest =>
      cases f2 with
      | zero => simp at h2
      | succ m =>
        have hr : rest.length ≤ n := by simp at h1; omega
        have hr2 : rest.length ≤ m := by simp at h2; omega
        simp only [iterAuxF]
        by_cases hc : c = '['
        · simp only [if_pos hc]
          by_cases hd : d = 0
          · simp only [if_pos hd]
            cases htok : tryToken rest with
            | none => exact ih m rest _ _ hr hr2
            | some p =>
              obtain ⟨nw, idv, rest2⟩ := p
              have hlen := tryToken_length htok
              exact congrArg _ (ih m rest2 _ _ (by omega) (by omega))
          · simp only [if_neg hd]; exact ih m rest _ _ hr hr2
        · simp only [if_neg hc]
          by_cases hc2 : c = ']'
          · simp only [if_pos hc2]; exact ih m rest _ _ hr hr2
          · simp only [if_neg hc2]; exact ih m rest _ _ hr hr2

theorem replace2_nil (a b r : Char) : replace2 a b r [] = [] := rfl

theorem replace2_single (a b r x : Char) : replace2 a b r [x] = [x] := rfl

theorem replace2_cons2 (a b r x y : Char) (rest : List Char) :
    replace2 a b r (x :: y :: rest) =
      if x = a ∧ y = b then r :: replace2 a b r rest
      else x :: replace2 a b r (y :: rest) := rfl

/-!
Claim theorems.
-/

/-- C4: depth-aware anchor suppression.  The input `[a[b::1]` yields no
matches and no anchors, and in general the scanner at a `[` seen at a
nonzero bracket depth never attempts the token pattern: it simply swallows
the bracket into the depth counter. -/
theorem c4_depth_aware_suppression :
    iter_inline_matches "[a[b::1]" = [] ∧
    parse_inline_anchors "[a[b::1]" = [] ∧
    ∀ (fuel : Nat) (rest : List Char) (i d : Nat),
      iterAuxF (fuel + 1) ('[' :: rest) i (d + 1) =
        iterAuxF fuel rest (i + 1) (d + 2) := by
  refine ⟨by decide, by decide, ?_⟩
  intro fuel rest i d
  simp [iterAuxF]

/-- C5: every anchor produced by `parse_inline_anchors` has a positive id
(as a natural number, its decimal digits therefore match `[1-9]` followed
by digits, with no leading zero), and the token candidates `[::0]` and
`[::01]` never match. -/
theorem c5_id_positive :
    (∀ (s : String) (a : InlineAnchor), a ∈ parse_inline_anchors s → 1 ≤ a.id) ∧
    parse_inline_anchors "[::0]" = [] ∧
    parse_inline_anchors "[::01]" = [] := by
  refine ⟨?_, by decide, by decide⟩
  intro s a ha
  simp only [parse_inline_anchors, List.mem_map] at ha
  obtain ⟨m, hm, rfl⟩ := ha
  exact iterAuxF_id_pos _ _ _ _ m hm

/-- Witness for C5: the input `[x::1]` produces the anchor with id 1, and
the theorem applies to it. -/
theorem c5_witness :
    (⟨1, "replace_or_insert", "x", (0, 6)⟩ : InlineAnchor) ∈
      parse_inline_anchors "[x::1]" ∧
    1 ≤ (⟨1, "replace_or_insert", "x", (0, 6)⟩ : InlineAnchor).id :=
  ⟨by decide,
   c5_id_positive.1 "[x::1]" ⟨1, "replace_or_insert", "x", (0, 6)⟩ (by decide)⟩

/-- C6 counterexample: the three-character payload backslash backslash `n`
does NOT unescape to the two characters backslash `n` as the claim demands;
the chained replacements first collapse the double backslash and the later
`\n` replacement then consumes the result, producing a newline. -/
theorem c6_counterexample :
    unescape_minimal [bsl, bsl, 'n'] = ['\n'] ∧
    unescape_minimal [bsl, bsl, 'n'] ≠ [bsl, 'n'] := by
  constructor <;> decide

/-- C6 amended: unescaping is six chained two-character replacements in the
order `\\`, `\"`, `\'`, `\n`, `\r`, `\t`; an isolated escape maps per the
table and any other isolated backslash sequence passes through literally,
but each replacement runs on the previous one's output, so a backslash
produced by collapsing `\\` is reprocessed: backslash backslash `n`
unescapes to a newline. -/
theorem c6_amended_chain :
    (∀ c : Char, unescape_minimal [bsl, c] =
      if c = bsl then [bsl]
      else if c = Char.ofNat 34 then [Char.ofNat 34]
      else if c = Char.ofNat 39 then [Char.ofNat 39]
      else if c = 'n' then ['\n']
      else if c = 'r' then ['\r']
      else if c = 't' then ['\t']
      else [bsl, c]) ∧
    unescape_minimal [bsl, bsl, 'n'] = ['\n'] := by
  refine ⟨?_, by decide⟩
  intro c
  by_cases h1 : c = bsl
  · subst h1; decide
  · by_cases h2 : c = Char.ofNat 34
    · subst h2; decide
    · by_cases h3 : c = Char.ofNat 39
      · subst h3; decide
      · by_cases h4 : c = 'n'
        · subst h4; decide
        · by_cases h5 : c = 'r'
          · subst h5; decide
          · by_cases h6 : c = 't'
            · subst h6; decide
            · have h1' : ¬c = Char.ofNat 92 := by simpa [bsl] using h1
              simp only [if_neg h1, if_neg h2, if_neg h3, if_neg h4,
                if_neg h5, if_neg h6]
              simp [unescape_minimal, replace2_cons2, replace2_single,
                replace2_nil, h1', h2, h3, h4, h5, h6, bsl]

/-- C7: on any input in which the scanner finds no anchors, `apply_inline`
returns the input unchanged except for stripping trailing carriage returns
and newlines from the end (so internal newlines are untouched). -/
theorem c7_renderer_identity (s : String) (h : iter_inline_matches s = []) :
    apply_inline s = String.mk (rstripNewlines s.data) := by
  unfold apply_inline
  rw [h]
  rfl

/-- Witness for C7 at a concrete anchor-free input with internal and
trailing newlines. -/
theorem c7_witness :
    apply_inline "No anchors [here\nat all.\r\n" = "No anchors [here\nat all." :=
  (c7_renderer_identity "No anchors [here\nat all.\r\n" (by decide)).trans
    (by decide)

/-- C10: reconstruction with an empty edit list coincides with rendering:
with no edit sharing any anchor's id, every anchor falls back to its own
new text, and the same trailing-newline strip is applied. -/
theorem c10_empty_edits_is_render :
    ∀ s : String, apply_inline_with_old_text s [] = apply_inline s := by
  intro s
  rfl

/-- C1: the parse entry point is total over every producer shape (each
attribute present, absent, or None, via the `Option` fields) and every
optional original text — it is a Lean function into `ParseResult`, with the
normalized inputs recoverable from the result — and any failure of the
reconstruction step (modelled as `Except.error`, standing for a Python
exception inside the `try:` block) is caught and converted into a
descriptive structural error string rather than propagated. -/
theorem c1_parse_document_total :
    ∀ (recon : String → List Edit → Except String String)
      (diffFn : String → String → List String) (pred : Producer)
      (orig : Option String),
      (parse_document_gen recon diffFn pred orig).inline_text =
        pred.edited_text.getD "" ∧
      (parse_document_gen recon diffFn pred orig).edits = pred.edits.getD [] ∧
      (∀ t e, orig = some t → pred.edits.getD [] ≠ [] →
        recon (pred.edited_text.getD "") (pred.edits.getD []) =
          Except.error e →
        ("Error during original text reconstruction: " ++ e) ∈
          (parse_document_gen recon diffFn pred orig).errors) := by
  intro recon diffFn pred orig
  refine ⟨rfl, rfl, ?_⟩
  intro t e horig hed hrec
  subst horig
  simp [parse_document_gen, hed, hrec]

/-- Witness for C1: a reconstruction step that throws is converted into the
descriptive error string. -/
theorem c1_witness :
    ("Error during original text reconstruction: boom") ∈
      (parse_document_gen (fun _ _ => Except.error "boom") emptyDiff
        witnessPred (some "orig")).errors :=
  (c1_parse_document_total (fun _ _ => Except.error "boom") emptyDiff
    witnessPred (some "orig")).2.2 "orig" "boom" rfl (by decide) rfl

/-- C2: with no original text, the error list is empty whenever either no
edits are supplied at all, or the edit list matches the anchor list in
length and in id set. -/
theorem c2_no_errors (diffFn : String → String → List String) (pred : Producer)
    (h : pred.edits.getD [] = [] ∨
      ((pred.edits.getD []).length =
          (parse_inline_anchors (pred.edited_text.getD "")).length ∧
        setEqIds
          ((parse_inline_anchors (pred.edited_text.getD "")).map fun a => a.id)
          ((pred.edits.getD []).map fun e => e.id) = true)) :
    (parse_document diffFn pred none).errors = [] := by
  unfold parse_document parse_document_gen
  rcases h with h | ⟨hlen, hset⟩
  · simp [h]
  · simp [hlen, hset]

/-- Witness for C2 at a producer with one anchor and one matching edit. -/
theorem c2_witness : (parse_document emptyDiff witnessPred none).errors = [] :=
  c2_no_errors emptyDiff witnessPred (by decide)

/-- C3 counterexample: for a producer whose backmatter block is non-empty
and malformed (so it yields zero edits), the error list is EMPTY — no
structural error flags the backmatter parse failure, contrary to the
claim. -/
theorem c3_counterexample :
    (parse_document emptyDiff malformedBMPred none).backmatter_text ≠ "" ∧
    (parse_document emptyDiff malformedBMPred none).edits = [] ∧
    (parse_document emptyDiff malformedBMPred none).errors = [] := by
  refine ⟨by decide, by decide, by decide⟩

/-- C3 amended: `parse_document` never emits a backmatter-related
structural error; whenever the edit list is empty the error list is empty,
whatever the backmatter text contains, so a backmatter parse failure is
observable only by the caller comparing a non-empty `backmatter_text`
against an empty `edits` in the result. -/
theorem c3_amended_no_backmatter_error
    (diffFn : String → String → List String) (pred : Producer)
    (orig : Option String) (h : pred.edits.getD [] = []) :
    (parse_document diffFn pred orig).errors = [] ∧
    (parse_document diffFn pred orig).backmatter_text =
      pred.backmatter_text.getD "" := by
  refine ⟨?_, rfl⟩
  unfold parse_document parse_document_gen
  cases orig <;> simp [h]

/-- Witness for C3's amended statement at the malformed-backmatter
producer, with an original text supplied. -/
theorem c3_witness :
    (parse_document witnessDiff malformedBMPred (some "x")).errors = [] :=
  (c3_amended_no_backmatter_error witnessDiff malformedBMPred (some "x")
    (by decide)).1

/-- C8: when an original text is supplied, the edits are non-empty and pass
both the cardinality and the id-set check, and the reconstruction differs
from the original, the error list is exactly one reconstruction-failure
message, and that message carries either the (joined) diff of the two texts
or, when the diff renders empty, the comparison of their lengths. -/
theorem c8_reconstruction_mismatch
    (diffFn : String → String → List String) (pred : Producer) (orig : String)
    (hne : pred.edits.getD [] ≠ [])
    (hlen : (pred.edits.getD []).length =
      (parse_inline_anchors (pred.edited_text.getD "")).length)
    (hset : setEqIds
      ((parse_inline_anchors (pred.edited_text.getD "")).map fun a => a.id)
      ((pred.edits.getD []).map fun e => e.id) = true)
    (hmis : apply_inline_with_old_text (pred.edited_text.getD "")
      (pred.edits.getD []) ≠ orig) :
    (parse_document diffFn pred (some orig)).errors =
      ["Failed to reconstruct original text from edits. " ++
        generate_diff_message diffFn orig
          (apply_inline_with_old_text (pred.edited_text.getD "")
            (pred.edits.getD []))] ∧
    ((diffFn orig (apply_inline_with_old_text (pred.edited_text.getD "")
          (pred.edits.getD [])) ≠ [] ∧
      generate_diff_message diffFn orig
          (apply_inline_with_old_text (pred.edited_text.getD "")
            (pred.edits.getD [])) =
        "Text mismatch when reconstructing original from edits:\n" ++
          String.join (diffFn orig
            (apply_inline_with_old_text (pred.edited_text.getD "")
              (pred.edits.getD [])))) ∨
     (diffFn orig (apply_inline_with_old_text (pred.edited_text.getD "")
          (pred.edits.getD [])) = [] ∧
      generate_diff_message diffFn orig
          (apply_inline_with_old_text (pred.edited_text.getD "")
            (pred.edits.getD [])) =
        "Text mismatch: original length=" ++ toString orig.length ++
          ", reconstructed length=" ++
          toString (apply_inline_with_old_text (pred.edited_text.getD "")
            (pred.edits.getD [])).length)) := by
  constructor
  · unfold parse_document parse_document_gen
    simp [hne, hlen, hset, hmis]
  · by_cases hd : diffFn orig (apply_inline_with_old_text
        (pred.edited_text.getD "") (pred.edits.getD [])) = []
    · right
      exact ⟨hd, by simp [generate_diff_message, hd]⟩
    · left
      exact ⟨hd, by simp [generate_diff_message, hd]⟩

/-- Witness for C8: one edit whose old text does not reproduce the
original, giving exactly one structural error. -/
theorem c8_witness :
    (parse_document witnessDiff witnessPred
      (some "The teacher walked.")).errors.length = 1 := by
  rw [(c8_reconstruction_mismatch witnessDiff witnessPred "The teacher walked."
    (by decide) (by decide) (by decide) (by decide)).1]
  rfl

/-- C9: whenever the parse result carries at least one error and gating on
parse errors is enabled, the reward breakdown is gated with reward exactly
zero, independently of every other component score and weight. -/
theorem c9_hard_gate (pr : ParseResult) (config : Config)
    (herr : pr.errors ≠ []) (hgate : config.gate_on_parse_errors = true) :
    (compute_reward pr config).gated = true ∧
    (compute_reward pr config).reward = 0 := by
  have hval : (compute_component_scores pr config).no_parse_errors.value = 0 := by
    simp [compute_component_scores, score_no_parse_errors,
      List.length_pos.mpr herr]
  constructor <;>
    simp [compute_reward, ComponentScores.compute, hgate, hval] <;>
    (split <;> rfl)

/-- Witness for C9: an errored parse result under the default
configuration is gated to reward zero. -/
theorem c9_witness :
    (compute_reward ⟨"", "", "", [], [], ["boom"]⟩ DEFAULT_CONFIG).gated = true ∧
    (compute_reward ⟨"", "", "", [], [], ["boom"]⟩ DEFAULT_CONFIG).reward = 0 :=
  c9_hard_gate ⟨"", "", "", [], [], ["boom"]⟩ DEFAULT_CONFIG (by decide)
    (by decide)

end GrammarLee
